import Mathlib

/-!
Verification of the promise combinator engine of `near-sdk/src/promise.rs`.

The Rust code builds a graph of batch nodes and join nodes and registers it
with an external execution engine (the `crate::env` host functions) lazily,
through memoized `construct_recursively` calls triggered by combinators and
by `Drop`.

Embedding choices:
* The external engine is modelled by `EnvState`: a fresh-index counter plus an
  append-only trace of the host calls issued (`ExtCall`).
* `Promise` in the source holds its node behind `Rc<RefCell<...>>`, but
  `Promise` implements no `Clone` and never hands out its `subtype`, so a node
  is reachable from exactly one handle; interior mutability is therefore
  modelled by functional update, each operation returning the updated handle.
* `env::panic_str` aborts without unwinding, so a panic is modelled as
  `Except.error` carrying the panic message and the engine state at the panic.
* Rust drops the `self`/`other` parameters consumed by `and` and `then` when
  those functions return, which re-invokes `construct_recursively`; the
  embeddings of `and` and `then` perform those drops explicitly.
-/

abbrev AccountId := String
abbrev Balance := Nat
abbrev Gas := Nat
abbrev GasWeight := Nat
abbrev PublicKey := String
abbrev PromiseIndex := Nat

/-- The `PromiseAction` enum: one variant per primitive host operation. -/
inductive PromiseAction where
  | createAccount
  | deployContract (code : List Nat)
  | functionCall (function_name : String) (arguments : List Nat)
      (amount : Balance) (gas : Gas)
  | functionCallWeight (function_name : String) (arguments : List Nat)
      (amount : Balance) (gas : Gas) (weight : GasWeight)
  | transfer (amount : Balance)
  | stake (amount : Balance) (public_key : PublicKey)
  | addFullAccessKey (public_key : PublicKey) (nonce : Nat)
  | addAccessKey (public_key : PublicKey) (allowance : Balance)
      (receiver_id : AccountId) (function_names : String) (nonce : Nat)
  | deleteKey (public_key : PublicKey)
  | deleteAccount (beneficiary_id : AccountId)
  deriving DecidableEq, Repr

/-- One observable call to the external engine (a `crate::env` host function),
together with the index the engine returned where applicable. -/
inductive ExtCall where
  | promiseBatchCreate (account_id : AccountId) (ret : PromiseIndex)
  | promiseBatchThen (after : PromiseIndex) (account_id : AccountId)
      (ret : PromiseIndex)
  | promiseBatchAction (idx : PromiseIndex) (action : PromiseAction)
  | promiseAnd (a b : PromiseIndex) (ret : PromiseIndex)
  | promiseReturn (idx : PromiseIndex)
  deriving DecidableEq, Repr

/-- The external engine: it hands out fresh indices and records every call. -/
structure EnvState where
  nextIndex : Nat
  trace : List ExtCall
  deriving DecidableEq, Repr

def EnvState.promise_batch_create (account_id : AccountId) (st : EnvState) :
    PromiseIndex × EnvState :=
  (st.nextIndex,
   ⟨st.nextIndex + 1,
    st.trace ++ [ExtCall.promiseBatchCreate account_id st.nextIndex]⟩)

def EnvState.promise_batch_then (after : PromiseIndex) (account_id : AccountId)
    (st : EnvState) : PromiseIndex × EnvState :=
  (st.nextIndex,
   ⟨st.nextIndex + 1,
    st.trace ++ [ExtCall.promiseBatchThen after account_id st.nextIndex]⟩)

def EnvState.promise_and (a b : PromiseIndex) (st : EnvState) :
    PromiseIndex × EnvState :=
  (st.nextIndex,
   ⟨st.nextIndex + 1, st.trace ++ [ExtCall.promiseAnd a b st.nextIndex]⟩)

def EnvState.promise_return (idx : PromiseIndex) (st : EnvState) : EnvState :=
  ⟨st.nextIndex, st.trace ++ [ExtCall.promiseReturn idx]⟩

def EnvState.promise_batch_action (idx : PromiseIndex) (a : PromiseAction)
    (st : EnvState) : EnvState :=
  ⟨st.nextIndex, st.trace ++ [ExtCall.promiseBatchAction idx a]⟩

/-- `impl PromiseAction { fn add(&self, promise_index) }`: dispatch to the
per-variant `env::promise_batch_action_*` host call. -/
def PromiseAction.add (a : PromiseAction) (promise_index : PromiseIndex)
    (st : EnvState) : EnvState :=
  match a with
  | .createAccount => st.promise_batch_action promise_index .createAccount
  | .deployContract code =>
      st.promise_batch_action promise_index (.deployContract code)
  | .functionCall fn args amount gas =>
      st.promise_batch_action promise_index (.functionCall fn args amount gas)
  | .functionCallWeight fn args amount gas w =>
      st.promise_batch_action promise_index
        (.functionCallWeight fn args amount gas w)
  | .transfer amount => st.promise_batch_action promise_index (.transfer amount)
  | .stake amount pk => st.promise_batch_action promise_index (.stake amount pk)
  | .addFullAccessKey pk nonce =>
      st.promise_batch_action promise_index (.addFullAccessKey pk nonce)
  | .addAccessKey pk allowance recv fns nonce =>
      st.promise_batch_action promise_index
        (.addAccessKey pk allowance recv fns nonce)
  | .deleteKey pk => st.promise_batch_action promise_index (.deleteKey pk)
  | .deleteAccount b => st.promise_batch_action promise_index (.deleteAccount b)

/-- `struct PromiseSingle` (a batch node): target account, append-only action
list, optional predecessor index, write-once memoized index. -/
structure PromiseSingle where
  account_id : AccountId
  actions : List PromiseAction
  after : Option PromiseIndex
  promise_index : Option PromiseIndex
  deriving DecidableEq, Repr

/-- `struct PromiseJoint` (a join node): two already-resolved operand indices
and a write-once memoized index. -/
structure PromiseJoint where
  promise_a : PromiseIndex
  promise_b : PromiseIndex
  promise_index : Option PromiseIndex
  deriving DecidableEq, Repr

inductive PromiseSubtype where
  | single (s : PromiseSingle)
  | joint (j : PromiseJoint)
  deriving DecidableEq, Repr

/-- `struct Promise`: a tagged node plus the `should_return` flag. -/
structure Promise where
  subtype : PromiseSubtype
  should_return : Bool
  deriving DecidableEq, Repr

/-- `PromiseSingle::construct_recursively`: memoized; on first call begin the
batch (chained after the predecessor when one is set), then apply every
accumulated action in order, and cache the index. -/
def PromiseSingle.construct_recursively (s : PromiseSingle) (st : EnvState) :
    PromiseIndex × PromiseSingle × EnvState :=
  match s.promise_index with
  | some res => (res, s, st)
  | none =>
    let (promise_index, st1) :=
      match s.after with
      | some after => st.promise_batch_then after s.account_id
      | none => st.promise_batch_create s.account_id
    let st2 :=
      s.actions.foldl (fun acc a => a.add promise_index acc) st1
    (promise_index, { s with promise_index := some promise_index }, st2)

/-- `PromiseJoint::construct_recursively`: memoized; on first call issue the
`promise_and` host call over the two stored operand indices. -/
def PromiseJoint.construct_recursively (j : PromiseJoint) (st : EnvState) :
    PromiseIndex × PromiseJoint × EnvState :=
  match j.promise_index with
  | some res => (res, j, st)
  | none =>
    let (res, st1) := st.promise_and j.promise_a j.promise_b
    (res, { j with promise_index := some res }, st1)

/-- `Promise::construct_recursively`: construct the wrapped node, then issue
`promise_return` whenever `should_return` is set (this step is outside the
node-level memoization and runs on every invocation). -/
def Promise.construct_recursively (p : Promise) (st : EnvState) :
    PromiseIndex × Promise × EnvState :=
  let (res, sub, st1) :=
    match p.subtype with
    | .single x =>
        let (r, x1, s1) := x.construct_recursively st
        (r, PromiseSubtype.single x1, s1)
    | .joint x =>
        let (r, x1, s1) := x.construct_recursively st
        (r, PromiseSubtype.joint x1, s1)
  let st2 := if p.should_return then st1.promise_return res else st1
  (res, { p with subtype := sub }, st2)

/-- `impl Drop for Promise`: finalization at end of life. -/
def Promise.drop (p : Promise) (st : EnvState) : EnvState :=
  (p.construct_recursively st).2.2

/-- `Promise::new_with_return`: a fresh batch node, no actions, no
predecessor, unregistered, `should_return = false`. -/
def Promise.new_with_return (account_id : AccountId) : Promise :=
  ⟨.single ⟨account_id, [], none, none⟩, false⟩

/-- `Promise::new`. -/
def Promise.new (account_id : AccountId) : Promise :=
  Promise.new_with_return account_id

/-- `Promise::as_return`: set the flag, return the same handle. -/
def Promise.as_return (p : Promise) : Promise :=
  { p with should_return := true }

/-- A panic (`env::panic_str` aborts): message plus engine state at the abort. -/
abbrev PResult (α : Type) := Except (String × EnvState) α

/-- `Promise::add_action`: append to a batch node; panic on a joint node. -/
def Promise.add_action (p : Promise) (action : PromiseAction) (st : EnvState) :
    PResult (Promise × EnvState) :=
  match p.subtype with
  | .single x =>
      .ok ({ p with subtype := .single { x with actions := x.actions ++ [action] } },
           st)
  | .joint _ => .error ("Cannot add action to a joint promise.", st)

def Promise.create_account (p : Promise) (st : EnvState) :
    PResult (Promise × EnvState) :=
  p.add_action .createAccount st

def Promise.deploy_contract (p : Promise) (code : List Nat) (st : EnvState) :
    PResult (Promise × EnvState) :=
  p.add_action (.deployContract code) st

def Promise.function_call (p : Promise) (function_name : String)
    (arguments : List Nat) (amount : Balance) (gas : Gas) (st : EnvState) :
    PResult (Promise × EnvState) :=
  p.add_action (.functionCall function_name arguments amount gas) st

def Promise.function_call_weight (p : Promise) (function_name : String)
    (arguments : List Nat) (amount : Balance) (gas : Gas) (weight : GasWeight)
    (st : EnvState) : PResult (Promise × EnvState) :=
  p.add_action (.functionCallWeight function_name arguments amount gas weight) st

def Promise.transfer (p : Promise) (amount : Balance) (st : EnvState) :
    PResult (Promise × EnvState) :=
  p.add_action (.transfer amount) st

def Promise.stake (p : Promise) (amount : Balance) (public_key : PublicKey)
    (st : EnvState) : PResult (Promise × EnvState) :=
  p.add_action (.stake amount public_key) st

def Promise.add_full_access_key_with_nonce (p : Promise)
    (public_key : PublicKey) (nonce : Nat) (st : EnvState) :
    PResult (Promise × EnvState) :=
  p.add_action (.addFullAccessKey public_key nonce) st

def Promise.add_full_access_key (p : Promise) (public_key : PublicKey)
    (st : EnvState) : PResult (Promise × EnvState) :=
  p.add_full_access_key_with_nonce public_key 0 st

def Promise.add_access_key_with_nonce (p : Promise) (public_key : PublicKey)
    (allowance : Balance) (receiver_id : AccountId) (function_names : String)
    (nonce : Nat) (st : EnvState) : PResult (Promise × EnvState) :=
  p.add_action
    (.addAccessKey public_key allowance receiver_id function_names nonce) st

def Promise.add_access_key (p : Promise) (public_key : PublicKey)
    (allowance : Balance) (receiver_id : AccountId) (function_names : String)
    (st : EnvState) : PResult (Promise × EnvState) :=
  p.add_access_key_with_nonce public_key allowance receiver_id function_names 0 st

def Promise.delete_key (p : Promise) (public_key : PublicKey) (st : EnvState) :
    PResult (Promise × EnvState) :=
  p.add_action (.deleteKey public_key) st

def Promise.delete_account (p : Promise) (beneficiary_id : AccountId)
    (st : EnvState) : PResult (Promise × EnvState) :=
  p.add_action (.deleteAccount beneficiary_id) st

/-- `Promise::and`: eagerly construct both operands, wrap the two resulting
indices in a fresh unregistered joint node.  The consumed `self` and `other`
parameters are dropped when the function returns (in reverse declaration
order), which re-runs their finalization. -/
def Promise.and (self other : Promise) (st : EnvState) : Promise × EnvState :=
  let (ia, self1, st1) := self.construct_recursively st
  let (ib, other1, st2) := other.construct_recursively st1
  let res : Promise := ⟨.joint ⟨ia, ib, none⟩, false⟩
  let st3 := other1.drop st2
  let st4 := self1.drop st3
  (res, st4)

/-- `Promise::then`: panic if `other` is a joint node or already has a
predecessor; otherwise construct `self` and store its index as `other`'s
predecessor, returning `other`.  The consumed `self` is dropped on return. -/
def Promise.«then» (self other : Promise) (st : EnvState) :
    PResult (Promise × EnvState) :=
  match other.subtype with
  | .single x =>
    if x.after.isSome then
      .error ("Cannot callback promise which is already scheduled after another",
              st)
    else
      let (idx, self1, st1) := self.construct_recursively st
      let other1 : Promise := { other with subtype := .single { x with after := some idx } }
      let st2 := self1.drop st1
      .ok (other1, st2)
  | .joint _ => .error ("Cannot callback joint promise.", st)

/-- `impl BorshSerialize for Promise`: set `should_return`, write no bytes,
issue no host call. -/
def Promise.borsh_serialize (p : Promise) (st : EnvState) :
    Promise × EnvState × List Nat :=
  ({ p with should_return := true }, st, [])

/-- `enum PromiseOrValue<T>`. -/
inductive PromiseOrValue (T : Type) where
  | promise (p : Promise)
  | value (v : T)

/-- `impl BorshSerialize for PromiseOrValue<T>`: a value serializes as itself
(via `T`'s serializer `serT`); a promise delegates to `Promise`'s serializer. -/
def PromiseOrValue.borsh_serialize {T : Type} (serT : T → List Nat)
    (pv : PromiseOrValue T) (st : EnvState) :
    PromiseOrValue T × EnvState × List Nat :=
  match pv with
  | .value x => (.value x, st, serT x)
  | .promise p =>
      let (p1, st1, bytes) := p.borsh_serialize st
      (.promise p1, st1, bytes)

/-- The memoized external index of the node a handle wraps, when registered. -/
def Promise.finalIndex (p : Promise) : Option PromiseIndex :=
  match p.subtype with
  | .single s => s.promise_index
  | .joint j => j.promise_index

/-- Whether the wrapped batch node already has a predecessor set
(`false` for joint handles, which have no predecessor field). -/
def Promise.hasPredecessor (p : Promise) : Bool :=
  match p.subtype with
  | .single s => s.after.isSome
  | .joint _ => false

/-- Whether the handle wraps a join node. -/
def Promise.isJoint (p : Promise) : Bool :=
  match p.subtype with
  | .single _ => false
  | .joint _ => true

/-- `n + 1` successive finalizations of the same handle, threading the handle
and engine state; returns the last call's result. -/
def Promise.iterateConstruct (p : Promise) (st : EnvState) :
    Nat → PromiseIndex × Promise × EnvState
  | 0 => p.construct_recursively st
  | n + 1 =>
    let (_, p1, st1) := p.construct_recursively st
    p1.iterateConstruct st1 n

/-- Registration calls are every engine call except `promise_return`:
batch creation (plain or chained), action application, and join creation. -/
def ExtCall.isRegistration : ExtCall → Bool
  | .promiseReturn _ => false
  | _ => true

/-- The registration calls of a trace, in order. -/
def registrations (t : List ExtCall) : List ExtCall :=
  t.filter ExtCall.isRegistration

/-- How many `promise_return` calls a trace contains. -/
def countReturns (t : List ExtCall) : Nat :=
  (t.filter fun c => !c.isRegistration).length

/-- The exact host-call sequence that registering the batch node `s` under
index `i` emits: one batch-creation call followed by one action call per
accumulated action, in insertion order. -/
def PromiseSingle.registrationTrace (s : PromiseSingle) (i : PromiseIndex) :
    List ExtCall :=
  (match s.after with
   | some a => [ExtCall.promiseBatchThen a s.account_id i]
   | none => [ExtCall.promiseBatchCreate s.account_id i])
  ++ s.actions.map (fun a => ExtCall.promiseBatchAction i a)

/-- The C4 scenario: `h1 = new("a").create_account()`,
`h2 = new("b").create_account()`, `h3 = h1.then(h2)`, finalize `h3`;
the resulting engine trace (empty on a panic, which does not occur). -/
def thenScenarioTrace : List ExtCall :=
  match (Promise.new "a").create_account ⟨0, []⟩ with
  | .error _ => []
  | .ok (h1, st1) =>
    match (Promise.new "b").create_account st1 with
    | .error _ => []
    | .ok (h2, st2) =>
      match h1.«then» h2 st2 with
      | .error _ => []
      | .ok (h3, st3) => (h3.drop st3).trace

/-- The C7 scenario: a fresh handle targeting `"x"` with `create_account()`
then `transfer(5)` appended, finalized; the resulting engine trace. -/
def batchScenarioTrace : List ExtCall :=
  match (Promise.new "x").create_account ⟨0, []⟩ with
  | .error _ => []
  | .ok (h1, st1) =>
    match h1.transfer 5 st1 with
    | .error _ => []
    | .ok (h2, st2) => (h2.drop st2).trace

/-- Trace of `new("x").as_return().and(new("y"))`: the left operand is
finalized twice (explicitly inside `and`, then by its drop at the end of
`and`), so its `promise_return` is issued twice. -/
def asReturnAndScenarioTrace : List ExtCall :=
  (Promise.and ((Promise.new "x").as_return) (Promise.new "y") ⟨0, []⟩).2.trace

/-! ### Helper lemmas -/

theorem PromiseAction.add_eq (a : PromiseAction) (i : PromiseIndex)
    (st : EnvState) :
    a.add i st = ⟨st.nextIndex, st.trace ++ [ExtCall.promiseBatchAction i a]⟩ := by
  cases a <;> rfl

theorem foldl_add_eq (acts : List PromiseAction) (i : PromiseIndex)
    (st : EnvState) :
    acts.foldl (fun acc a => a.add i acc) st
      = ⟨st.nextIndex,
         st.trace ++ acts.map (fun a => ExtCall.promiseBatchAction i a)⟩ := by
  induction acts generalizing st with
  | nil => simp
  | cons a as ih =>
    rw [List.foldl_cons, ih, PromiseAction.add_eq]
    simp

theorem single_construct_unregistered (s : PromiseSingle)
    (st : EnvState) (h : s.promise_index = none) :
    s.construct_recursively st
      = (st.nextIndex, { s with promise_index := some st.nextIndex },
         ⟨st.nextIndex + 1, st.trace ++ s.registrationTrace st.nextIndex⟩) := by
  unfold PromiseSingle.construct_recursively
  rw [h]
  cases hA : s.after <;>
    simp [EnvState.promise_batch_then, EnvState.promise_batch_create,
      foldl_add_eq, PromiseSingle.registrationTrace, hA]

theorem single_construct_registered (s : PromiseSingle)
    (st : EnvState) (i : PromiseIndex) (h : s.promise_index = some i) :
    s.construct_recursively st = (i, s, st) := by
  unfold PromiseSingle.construct_recursively
  rw [h]

theorem joint_construct_unregistered (j : PromiseJoint) (st : EnvState)
    (h : j.promise_index = none) :
    j.construct_recursively st
      = (st.nextIndex, { j with promise_index := some st.nextIndex },
         ⟨st.nextIndex + 1,
          st.trace ++ [ExtCall.promiseAnd j.promise_a j.promise_b st.nextIndex]⟩) := by
  unfold PromiseJoint.construct_recursively
  rw [h]
  rfl

theorem joint_construct_registered (j : PromiseJoint) (st : EnvState)
    (i : PromiseIndex) (h : j.promise_index = some i) :
    j.construct_recursively st = (i, j, st) := by
  unfold PromiseJoint.construct_recursively
  rw [h]

theorem Promise.construct_single_unregistered (s : PromiseSingle) (r : Bool)
    (st : EnvState) (h : s.promise_index = none) :
    Promise.construct_recursively ⟨.single s, r⟩ st
      = (st.nextIndex,
         ⟨.single { s with promise_index := some st.nextIndex }, r⟩,
         ⟨st.nextIndex + 1,
          st.trace ++ s.registrationTrace st.nextIndex
            ++ (if r then [ExtCall.promiseReturn st.nextIndex] else [])⟩) := by
  simp only [Promise.construct_recursively,
    single_construct_unregistered s st h]
  cases r <;> simp [EnvState.promise_return]

theorem Promise.construct_joint_unregistered (j : PromiseJoint) (r : Bool)
    (st : EnvState) (h : j.promise_index = none) :
    Promise.construct_recursively ⟨.joint j, r⟩ st
      = (st.nextIndex,
         ⟨.joint { j with promise_index := some st.nextIndex }, r⟩,
         ⟨st.nextIndex + 1,
          st.trace ++ [ExtCall.promiseAnd j.promise_a j.promise_b st.nextIndex]
            ++ (if r then [ExtCall.promiseReturn st.nextIndex] else [])⟩) := by
  simp only [Promise.construct_recursively,
    joint_construct_unregistered j st h]
  cases r <;> simp [EnvState.promise_return]

theorem Promise.construct_registered (p : Promise) (st : EnvState)
    (i : PromiseIndex) (h : p.finalIndex = some i) :
    p.construct_recursively st
      = (i, p, if p.should_return then st.promise_return i else st) := by
  obtain ⟨sub, r⟩ := p
  cases sub with
  | single s =>
    simp only [Promise.finalIndex] at h
    simp only [Promise.construct_recursively,
      single_construct_registered s st i h]
  | joint j =>
    simp only [Promise.finalIndex] at h
    simp only [Promise.construct_recursively,
      joint_construct_registered j st i h]

theorem Promise.finalIndex_construct (p : Promise) (st : EnvState) :
    (p.construct_recursively st).2.1.finalIndex
      = some (p.construct_recursively st).1 := by
  obtain ⟨sub, r⟩ := p
  cases sub with
  | single s =>
    cases hm : s.promise_index with
    | none => rw [Promise.construct_single_unregistered s r st hm]; rfl
    | some i =>
      rw [Promise.construct_registered ⟨.single s, r⟩ st i
            (by simp [Promise.finalIndex, hm])]
      simp [Promise.finalIndex, hm]
  | joint j =>
    cases hm : j.promise_index with
    | none => rw [Promise.construct_joint_unregistered j r st hm]; rfl
    | some i =>
      rw [Promise.construct_registered ⟨.joint j, r⟩ st i
            (by simp [Promise.finalIndex, hm])]
      simp [Promise.finalIndex, hm]

theorem registrations_promise_return (st : EnvState) (i : PromiseIndex) :
    registrations (st.promise_return i).trace = registrations st.trace := by
  simp [EnvState.promise_return, registrations, List.filter_append,
    ExtCall.isRegistration]

theorem registrations_drop_registered (p : Promise) (st : EnvState)
    (i : PromiseIndex) (h : p.finalIndex = some i) :
    registrations (p.drop st).trace = registrations st.trace := by
  rw [Promise.drop, Promise.construct_registered p st i h]
  by_cases hr : p.should_return <;> simp [hr, registrations_promise_return]

theorem countReturns_append (t1 t2 : List ExtCall) :
    countReturns (t1 ++ t2) = countReturns t1 + countReturns t2 := by
  simp [countReturns, List.filter_append]

theorem countReturns_actions_map (i : PromiseIndex)
    (acts : List PromiseAction) :
    countReturns (acts.map fun a => ExtCall.promiseBatchAction i a) = 0 := by
  induction acts with
  | nil => rfl
  | cons a as ih => simp [countReturns, ExtCall.isRegistration] at ih ⊢

theorem countReturns_registrationTrace (s : PromiseSingle) (i : PromiseIndex) :
    countReturns (s.registrationTrace i) = 0 := by
  cases hA : s.after <;>
    simp [PromiseSingle.registrationTrace, hA, countReturns_append,
      countReturns_actions_map, countReturns, ExtCall.isRegistration]

/-- C1: repeated finalization of any handle returns the same external index
each time, leaves the handle unchanged after the first call, and issues no
further registration calls. -/
theorem construct_idempotent (p : Promise) (st : EnvState) (n : Nat) :
    (p.iterateConstruct st n).1 = (p.construct_recursively st).1
    ∧ (p.iterateConstruct st n).2.1 = (p.construct_recursively st).2.1
    ∧ registrations (p.iterateConstruct st n).2.2.trace
        = registrations (p.construct_recursively st).2.2.trace := by
  induction n generalizing p st with
  | zero => exact ⟨rfl, rfl, rfl⟩
  | succ n ih =>
    obtain ⟨h1, h2, h3⟩ :=
      ih (p.construct_recursively st).2.1 (p.construct_recursively st).2.2
    have hfin := Promise.finalIndex_construct p st
    have hc := Promise.construct_registered (p.construct_recursively st).2.1
      (p.construct_recursively st).2.2 (p.construct_recursively st).1 hfin
    have hit : p.iterateConstruct st (n + 1)
        = ((p.construct_recursively st).2.1).iterateConstruct
            (p.construct_recursively st).2.2 n := rfl
    rw [hit]
    refine ⟨h1.trans ?_, h2.trans ?_, h3.trans ?_⟩
    · rw [hc]
    · rw [hc]
    · rw [hc]
      by_cases hr : (p.construct_recursively st).2.1.should_return
      · simp [hr, registrations_promise_return]
      · simp [hr]

theorem Promise.drop_registered (p : Promise) (st : EnvState)
    (i : PromiseIndex) (h : p.finalIndex = some i) :
    p.drop st = if p.should_return then st.promise_return i else st := by
  rw [Promise.drop, Promise.construct_registered p st i h]

theorem Promise.and_eq (a b : Promise) (st : EnvState) :
    Promise.and a b st
      = (⟨.joint ⟨(a.construct_recursively st).1,
            (b.construct_recursively (a.construct_recursively st).2.2).1, none⟩,
          false⟩,
         (a.construct_recursively st).2.1.drop
           ((b.construct_recursively (a.construct_recursively st).2.2).2.1.drop
             (b.construct_recursively (a.construct_recursively st).2.2).2.2)) := rfl

/-- C2 counterexample: the handle `new("x").as_return()` passed as the left
operand of `and` is finalized twice (once explicitly inside `and`, once by its
drop when `and` returns), and the engine receives `promise_return` twice, not
exactly once: `promise_return` sits outside the node-level memoization. -/
theorem as_return_double_finalization_two_returns :
    countReturns asReturnAndScenarioTrace = 2
    ∧ countReturns asReturnAndScenarioTrace ≠ 1 := by
  constructor <;> decide

/-- C2 amended: one finalization of an `as_return`-marked handle issues
exactly one `promise_return`, and it targets the handle's own final index
(the index its node memoizes), never an operand's; but `promise_return` is
re-issued on every further finalization, since only the node registration is
memoized. -/
theorem as_return_single_finalization_one_return (p : Promise) (st : EnvState)
    (h : p.should_return = true) :
    (p.construct_recursively st).2.1.finalIndex
      = some (p.construct_recursively st).1
    ∧ countReturns (p.construct_recursively st).2.2.trace
        = countReturns st.trace + 1
    ∧ ∃ t, (p.construct_recursively st).2.2.trace
          = st.trace ++ t
              ++ [ExtCall.promiseReturn (p.construct_recursively st).1]
        ∧ countReturns t = 0 := by
  have hshape : ∃ t, (p.construct_recursively st).2.2.trace
      = st.trace ++ t ++ [ExtCall.promiseReturn (p.construct_recursively st).1]
      ∧ countReturns t = 0 := by
    obtain ⟨sub, r⟩ := p
    simp only [Promise.should_return] at h
    subst h
    cases sub with
    | single s =>
      cases hm : s.promise_index with
      | none =>
        rw [Promise.construct_single_unregistered s true st hm]
        exact ⟨s.registrationTrace st.nextIndex, by simp,
          countReturns_registrationTrace s _⟩
      | some i =>
        rw [Promise.construct_registered ⟨.single s, true⟩ st i
              (by simp [Promise.finalIndex, hm])]
        exact ⟨[], by simp [EnvState.promise_return], rfl⟩
    | joint j =>
      cases hm : j.promise_index with
      | none =>
        rw [Promise.construct_joint_unregistered j true st hm]
        exact ⟨[ExtCall.promiseAnd j.promise_a j.promise_b st.nextIndex],
          by simp, rfl⟩
      | some i =>
        rw [Promise.construct_registered ⟨.joint j, true⟩ st i
              (by simp [Promise.finalIndex, hm])]
        exact ⟨[], by simp [EnvState.promise_return], rfl⟩
  refine ⟨Promise.finalIndex_construct p st, ?_, hshape⟩
  obtain ⟨t, ht, hc⟩ := hshape
  rw [ht, countReturns_append, countReturns_append, hc]
  simp [countReturns, ExtCall.isRegistration]

/-- C2 witness: the amended theorem at `new("x").as_return()` and the empty
engine. -/
theorem as_return_single_finalization_one_return_witness :
    ((Promise.new "x").as_return).should_return = true
    ∧ ((((Promise.new "x").as_return).construct_recursively ⟨0, []⟩).2.1.finalIndex
        = some (((Promise.new "x").as_return).construct_recursively ⟨0, []⟩).1
      ∧ countReturns
          (((Promise.new "x").as_return).construct_recursively ⟨0, []⟩).2.2.trace
          = countReturns (⟨0, []⟩ : EnvState).trace + 1
      ∧ ∃ t,
          (((Promise.new "x").as_return).construct_recursively ⟨0, []⟩).2.2.trace
            = (⟨0, []⟩ : EnvState).trace ++ t
                ++ [ExtCall.promiseReturn
                      (((Promise.new "x").as_return).construct_recursively
                        ⟨0, []⟩).1]
          ∧ countReturns t = 0) :=
  ⟨rfl, as_return_single_finalization_one_return ((Promise.new "x").as_return)
    ⟨0, []⟩ rfl⟩

/-- C3: `and(a, b)` eagerly registers both operands (their handles come back
memoized, every registration they need already in the trace), while the join
node itself is created unregistered; finalizing the joint handle later appends
the single `promise_and` call, which therefore comes strictly after every
registration call of both operands. -/
theorem and_operands_registered_before_join (a b : Promise) (st : EnvState) :
    (Promise.and a b st).1
      = ⟨.joint ⟨(a.construct_recursively st).1,
            (b.construct_recursively (a.construct_recursively st).2.2).1, none⟩,
          false⟩
    ∧ (a.construct_recursively st).2.1.finalIndex
        = some (a.construct_recursively st).1
    ∧ (b.construct_recursively (a.construct_recursively st).2.2).2.1.finalIndex
        = some (b.construct_recursively (a.construct_recursively st).2.2).1
    ∧ registrations (Promise.and a b st).2.trace
        = registrations
            (b.construct_recursively (a.construct_recursively st).2.2).2.2.trace
    ∧ ((Promise.and a b st).1.construct_recursively (Promise.and a b st).2).2.2.trace
        = (Promise.and a b st).2.trace
            ++ [ExtCall.promiseAnd (a.construct_recursively st).1
                  (b.construct_recursively (a.construct_recursively st).2.2).1
                  (Promise.and a b st).2.nextIndex]
    ∧ ((Promise.and a b st).1.construct_recursively (Promise.and a b st).2).1
        = (Promise.and a b st).2.nextIndex := by
  refine ⟨by rw [Promise.and_eq], Promise.finalIndex_construct a st,
    Promise.finalIndex_construct b _, ?_, ?_, ?_⟩
  · rw [Promise.and_eq]
    exact (registrations_drop_registered _ _ _
        (Promise.finalIndex_construct a st)).trans
      (registrations_drop_registered _ _ _ (Promise.finalIndex_construct b _))
  · conv_lhs => rw [Promise.and_eq]
    rw [Promise.construct_joint_unregistered _ false _ rfl]
    simp [Promise.and_eq]
  · conv_lhs => rw [Promise.and_eq]
    rw [Promise.construct_joint_unregistered _ false _ rfl]
    simp [Promise.and_eq]

/-- C9: when both operands of `and` are unregistered batch handles, the left
operand's batch creation and actions are all issued strictly before any call
for the right operand: the trace extension is the left operand's full
registration block followed by the right operand's. -/
theorem and_left_operand_registered_first (sa sb : PromiseSingle)
    (ra rb : Bool) (st : EnvState) (ha : sa.promise_index = none)
    (hb : sb.promise_index = none) :
    (Promise.and ⟨.single sa, ra⟩ ⟨.single sb, rb⟩ st).2.trace
      = st.trace
        ++ sa.registrationTrace st.nextIndex
        ++ (if ra then [ExtCall.promiseReturn st.nextIndex] else [])
        ++ sb.registrationTrace (st.nextIndex + 1)
        ++ (if rb then [ExtCall.promiseReturn (st.nextIndex + 1)] else [])
        ++ (if rb then [ExtCall.promiseReturn (st.nextIndex + 1)] else [])
        ++ (if ra then [ExtCall.promiseReturn st.nextIndex] else [])
    ∧ (Promise.and ⟨.single sa, ra⟩ ⟨.single sb, rb⟩ st).1
        = ⟨.joint ⟨st.nextIndex, st.nextIndex + 1, none⟩, false⟩ := by
  have hA := Promise.construct_single_unregistered sa ra st ha
  have hB := Promise.construct_single_unregistered sb rb
    ⟨st.nextIndex + 1,
     st.trace ++ sa.registrationTrace st.nextIndex
       ++ (if ra then [ExtCall.promiseReturn st.nextIndex] else [])⟩ hb
  constructor
  · rw [Promise.and_eq]
    simp only [hA, hB]
    rw [Promise.drop_registered
          ⟨.single { sb with promise_index := some (st.nextIndex + 1) }, rb⟩ _
          (st.nextIndex + 1) (by simp [Promise.finalIndex])]
    rw [Promise.drop_registered
          ⟨.single { sa with promise_index := some st.nextIndex }, ra⟩ _
          st.nextIndex (by simp [Promise.finalIndex])]
    cases ra <;> cases rb <;>
      simp [EnvState.promise_return, List.append_assoc]
  · rw [Promise.and_eq]
    simp only [hA, hB]

/-- C4: the `h1.then(h2)` scenario emits exactly
`begin_batch("a") = 0`, `apply_action(0, CreateAccount)`,
`begin_batch_after(0, "b") = 1`, `apply_action(1, CreateAccount)`:
`then` registers its left operand eagerly and the right operand's batch is
chained after the already-registered index. -/
theorem then_scenario_trace_exact :
    thenScenarioTrace
      = [ExtCall.promiseBatchCreate "a" 0,
         ExtCall.promiseBatchAction 0 .createAccount,
         ExtCall.promiseBatchThen 0 "b" 1,
         ExtCall.promiseBatchAction 1 .createAccount] := by rfl

/-- C7: a fresh batch for `"x"` with `create_account()` then `transfer(5)`,
finalized, emits exactly `begin_batch("x") = 0`,
`apply_action(0, CreateAccount)`, `apply_action(0, Transfer 5)` in insertion
order. -/
theorem batch_scenario_trace_exact :
    batchScenarioTrace
      = [ExtCall.promiseBatchCreate "x" 0,
         ExtCall.promiseBatchAction 0 .createAccount,
         ExtCall.promiseBatchAction 0 (.transfer 5)] := by rfl

/-- C5: `then(self, next)` panics exactly when `next` already has a
predecessor or wraps a join node; otherwise it stores the index obtained by
registering `self` as `next`'s predecessor and returns `next`. -/
theorem then_failure_iff_and_success (self other : Promise) (st : EnvState) :
    ((∃ msg stp, Promise.«then» self other st = .error (msg, stp))
      ↔ (other.hasPredecessor = true ∨ other.isJoint = true))
    ∧ (∀ x, other.subtype = .single x → x.after = none →
        Promise.«then» self other st
          = .ok ({ other with
                     subtype := .single { x with
                       after := some (self.construct_recursively st).1 } },
                 (self.construct_recursively st).2.1.drop
                   (self.construct_recursively st).2.2)) := by
  obtain ⟨osub, orr⟩ := other
  cases osub with
  | single x =>
    cases hA : x.after with
    | none =>
      refine ⟨⟨?_, ?_⟩, ?_⟩
      · rintro ⟨msg, stp, hEq⟩
        simp [Promise.«then», hA] at hEq
      · rintro (hp | hj)
        · simp [Promise.hasPredecessor, hA] at hp
        · simp [Promise.isJoint] at hj
      · intro y hy hAy
        have hxy : x = y := by
          simp only [PromiseSubtype.single.injEq] at hy
          exact hy
        cases hxy
        simp [Promise.«then», hA]
    | some i =>
      refine ⟨⟨?_, ?_⟩, ?_⟩
      · intro _
        exact Or.inl (by simp [Promise.hasPredecessor, hA])
      · intro _
        exact ⟨"Cannot callback promise which is already scheduled after another",
          st, by simp [Promise.«then», hA]⟩
      · intro y hy hAy
        have hxy : x = y := by
          simp only [PromiseSubtype.single.injEq] at hy
          exact hy
        cases hxy
        rw [hA] at hAy
        exact absurd hAy (by simp)
  | joint j =>
    refine ⟨⟨fun _ => Or.inr rfl, fun _ => ⟨_, _, rfl⟩⟩, ?_⟩
    intro y hy hAy
    simp at hy

/-- C5 witness: `then` at two fresh batches. -/
theorem then_failure_iff_and_success_witness :
    (Promise.new "b").subtype = .single ⟨"b", [], none, none⟩
    ∧ (⟨"b", [], none, none⟩ : PromiseSingle).after = none
    ∧ Promise.«then» (Promise.new "a") (Promise.new "b") ⟨0, []⟩
        = .ok ({ Promise.new "b" with
                   subtype := .single { (⟨"b", [], none, none⟩ : PromiseSingle) with
                     after := some ((Promise.new "a").construct_recursively
                                      ⟨0, []⟩).1 } },
               ((Promise.new "a").construct_recursively ⟨0, []⟩).2.1.drop
                 ((Promise.new "a").construct_recursively ⟨0, []⟩).2.2) :=
  ⟨rfl, rfl,
   (then_failure_iff_and_success (Promise.new "a") (Promise.new "b") ⟨0, []⟩).2
     ⟨"b", [], none, none⟩ rfl rfl⟩

/-- C6: every action-adding method on a handle wrapping a join node panics
with the joint-promise message, leaving the engine state exactly as it was
(no external call is made). -/
theorem action_on_joint_panics (p : Promise) (st : EnvState)
    (h : p.isJoint = true) :
    (∀ a, p.add_action a st
        = .error ("Cannot add action to a joint promise.", st))
    ∧ p.create_account st
        = .error ("Cannot add action to a joint promise.", st)
    ∧ (∀ code, p.deploy_contract code st
        = .error ("Cannot add action to a joint promise.", st))
    ∧ (∀ fn args amount gas, p.function_call fn args amount gas st
        = .error ("Cannot add action to a joint promise.", st))
    ∧ (∀ fn args amount gas w, p.function_call_weight fn args amount gas w st
        = .error ("Cannot add action to a joint promise.", st))
    ∧ (∀ amount, p.transfer amount st
        = .error ("Cannot add action to a joint promise.", st))
    ∧ (∀ amount pk, p.stake amount pk st
        = .error ("Cannot add action to a joint promise.", st))
    ∧ (∀ pk, p.add_full_access_key pk st
        = .error ("Cannot add action to a joint promise.", st))
    ∧ (∀ pk nonce, p.add_full_access_key_with_nonce pk nonce st
        = .error ("Cannot add action to a joint promise.", st))
    ∧ (∀ pk allowance recv fns, p.add_access_key pk allowance recv fns st
        = .error ("Cannot add action to a joint promise.", st))
    ∧ (∀ pk allowance recv fns nonce,
        p.add_access_key_with_nonce pk allowance recv fns nonce st
          = .error ("Cannot add action to a joint promise.", st))
    ∧ (∀ pk, p.delete_key pk st
        = .error ("Cannot add action to a joint promise.", st))
    ∧ (∀ b, p.delete_account b st
        = .error ("Cannot add action to a joint promise.", st)) := by
  obtain ⟨sub, r⟩ := p
  cases sub with
  | single s => simp [Promise.isJoint] at h
  | joint j =>
    exact ⟨fun _ => rfl, rfl, fun _ => rfl, fun _ _ _ _ => rfl,
      fun _ _ _ _ _ => rfl, fun _ => rfl, fun _ _ => rfl, fun _ => rfl,
      fun _ _ => rfl, fun _ _ _ _ => rfl, fun _ _ _ _ _ => rfl,
      fun _ => rfl, fun _ => rfl⟩

/-- C6 witness: a joint handle refuses `create_account` and `transfer`. -/
theorem action_on_joint_panics_witness :
    (⟨.joint ⟨0, 1, none⟩, false⟩ : Promise).isJoint = true
    ∧ (⟨.joint ⟨0, 1, none⟩, false⟩ : Promise).create_account ⟨2, []⟩
        = .error ("Cannot add action to a joint promise.", ⟨2, []⟩)
    ∧ (⟨.joint ⟨0, 1, none⟩, false⟩ : Promise).transfer 5 ⟨2, []⟩
        = .error ("Cannot add action to a joint promise.", ⟨2, []⟩) :=
  ⟨rfl,
   (action_on_joint_panics ⟨.joint ⟨0, 1, none⟩, false⟩ ⟨2, []⟩ rfl).2.1,
   (action_on_joint_panics ⟨.joint ⟨0, 1, none⟩, false⟩ ⟨2, []⟩
      rfl).2.2.2.2.2.1 5⟩

/-- C9 witness: the left-to-right registration order at two concrete
unregistered batches. -/
theorem and_left_operand_registered_first_witness :
    (⟨"a", [.createAccount], none, none⟩ : PromiseSingle).promise_index = none
    ∧ (⟨"b", [], none, none⟩ : PromiseSingle).promise_index = none
    ∧ ((Promise.and ⟨.single ⟨"a", [.createAccount], none, none⟩, false⟩
          ⟨.single ⟨"b", [], none, none⟩, false⟩ ⟨0, []⟩).2.trace
        = (⟨0, []⟩ : EnvState).trace
          ++ (⟨"a", [.createAccount], none, none⟩ : PromiseSingle).registrationTrace
               (⟨0, []⟩ : EnvState).nextIndex
          ++ (if false then [ExtCall.promiseReturn (⟨0, []⟩ : EnvState).nextIndex]
              else [])
          ++ (⟨"b", [], none, none⟩ : PromiseSingle).registrationTrace
               ((⟨0, []⟩ : EnvState).nextIndex + 1)
          ++ (if false then
                [ExtCall.promiseReturn ((⟨0, []⟩ : EnvState).nextIndex + 1)]
              else [])
          ++ (if false then
                [ExtCall.promiseReturn ((⟨0, []⟩ : EnvState).nextIndex + 1)]
              else [])
          ++ (if false then [ExtCall.promiseReturn (⟨0, []⟩ : EnvState).nextIndex]
              else [])
      ∧ (Promise.and ⟨.single ⟨"a", [.createAccount], none, none⟩, false⟩
           ⟨.single ⟨"b", [], none, none⟩, false⟩ ⟨0, []⟩).1
          = ⟨.joint ⟨(⟨0, []⟩ : EnvState).nextIndex,
                     (⟨0, []⟩ : EnvState).nextIndex + 1, none⟩, false⟩) :=
  ⟨rfl, rfl,
   and_left_operand_registered_first ⟨"a", [.createAccount], none, none⟩
     ⟨"b", [], none, none⟩ false false ⟨0, []⟩ rfl rfl⟩

/-- C10: when `then` panics (predecessor already set, or joint target), the
panic happens before `self` is constructed: the engine state at the abort is
exactly the input state, so no registration call was issued and no memo or
predecessor cell was written. -/
theorem then_panic_atomic (self other : Promise) (st : EnvState)
    (h : other.hasPredecessor = true ∨ other.isJoint = true) :
    ∃ msg, Promise.«then» self other st = .error (msg, st) := by
  obtain ⟨osub, orr⟩ := other
  cases osub with
  | single x =>
    cases hA : x.after with
    | none =>
      exfalso
      rcases h with hp | hj
      · simp [Promise.hasPredecessor, hA] at hp
      · simp [Promise.isJoint] at hj
    | some i =>
      exact ⟨"Cannot callback promise which is already scheduled after another",
        by simp [Promise.«then», hA]⟩
  | joint j => exact ⟨_, rfl⟩

/-- C10 witness: a target with its predecessor already set. -/
theorem then_panic_atomic_witness :
    ((⟨.single ⟨"b", [], some 0, none⟩, false⟩ : Promise).hasPredecessor = true
      ∨ (⟨.single ⟨"b", [], some 0, none⟩, false⟩ : Promise).isJoint = true)
    ∧ ∃ msg, Promise.«then» (Promise.new "a")
          ⟨.single ⟨"b", [], some 0, none⟩, false⟩ ⟨0, []⟩
        = .error (msg, ⟨0, []⟩) :=
  ⟨Or.inl rfl,
   then_panic_atomic (Promise.new "a") ⟨.single ⟨"b", [], some 0, none⟩, false⟩
     ⟨0, []⟩ (Or.inl rfl)⟩

/-- C8: serializing a `PromiseOrValue` routes a plain value straight to the
writer, while a wrapped handle only gets its `should_return` flag set: no
bytes are written, the engine state is untouched, and the later end-of-life
finalization of the handle behaves exactly as if `as_return` had been
called. -/
theorem promise_or_value_serialize_routing (T : Type) (serT : T → List Nat)
    (st : EnvState) :
    (∀ x : T, PromiseOrValue.borsh_serialize serT (.value x) st
        = (.value x, st, serT x))
    ∧ (∀ p : Promise, PromiseOrValue.borsh_serialize serT (.promise p) st
        = (.promise (p.as_return), st, []))
    ∧ (∀ p : Promise, ((p.borsh_serialize st).1).drop (p.borsh_serialize st).2.1
        = (p.as_return).drop st) :=
  ⟨fun _ => rfl, fun _ => rfl, fun _ => rfl⟩
